import Mathlib

/-!
Verification of the `exchange-shielded-sdk` Python wrapper
(`src/python/exchange_shielded_sdk/client.py`) against its specification.

The Python package is a thin wrapper that shells out to a TypeScript SDK.
The wrapper's own logic (subprocess/JSON error handling in `_call_sdk`,
inline address validation in `validate_address`, and the `.get`-with-default
parsing of SDK responses) is embedded directly from the source.  The
admission-control, orchestration and compliance-ledger engines live in the
TypeScript SDK, which is not part of the Python sources; those components
are modelled from the specification text, as marked in their doc comments.
-/

namespace ExchangeSdk

/-- JSON values, as produced by `json.loads` on the SDK's stdout.
Numbers are modelled as rationals (JSON number literals are decimal). -/
inductive Json where
  | null : Json
  | bool (b : Bool) : Json
  | num (q : ℚ) : Json
  | str (s : String) : Json
  | arr (xs : List Json) : Json
  | obj (kvs : List (String × Json)) : Json

/-- First-match association lookup, modelling Python `dict.get(k)` on a
parsed JSON object. -/
def jsonGet (kvs : List (String × Json)) (k : String) : Option Json :=
  match kvs with
  | [] => none
  | (k', v) :: rest => if k' = k then some v else jsonGet rest k

/-- Python `dict.get(k, d)`: the stored value when the key is present
(even if it is `null`), the default otherwise. -/
def jsonGetD (kvs : List (String × Json)) (k : String) (d : Json) : Json :=
  (jsonGet kvs k).getD d

/-- Python truthiness of a JSON value (`bool(x)` for the corresponding
Python object): `None`, `False`, `0`, `""`, `[]` and `{}` are falsy. -/
def pyTruthy : Json → Bool
  | .null => false
  | .bool b => b
  | .num q => decide (q ≠ 0)
  | .str s => !s.isEmpty
  | .arr xs => !xs.isEmpty
  | .obj kvs => !kvs.isEmpty

/-- Truthiness of `dict.get(k)`: a missing key yields `None`, which is falsy. -/
def pyTruthyOpt : Option Json → Bool
  | none => false
  | some v => pyTruthy v

/-- Characters stripped by Python `str.strip()` (ASCII whitespace). -/
def pyIsSpace (c : Char) : Bool :=
  c = ' ' || c = '\t' || c = '\n' || c = '\r' || c = Char.ofNat 11 || c = Char.ofNat 12

/-- Drop leading whitespace characters (Python `str.lstrip()`). -/
def lstripL (l : List Char) : List Char := l.dropWhile pyIsSpace

/-- Drop trailing whitespace characters (Python `str.rstrip()`). -/
def rstripL (l : List Char) : List Char := (l.reverse.dropWhile pyIsSpace).reverse

/-- Python `str.strip()`: drop leading and trailing whitespace. -/
def pyStrip (s : String) : String := ⟨rstripL (lstripL s.toList)⟩

theorem dropWhile_dropWhile (p : Char → Bool) (l : List Char) :
    (l.dropWhile p).dropWhile p = l.dropWhile p := by
  induction l with
  | nil => rfl
  | cons a t ih =>
    by_cases h : p a
    · simpa [List.dropWhile, h] using ih
    · simp [List.dropWhile, h]

theorem head_dropWhile_false {p : Char → Bool} {l : List Char} {a : Char}
    {t : List Char} (h : l.dropWhile p = a :: t) : p a = false := by
  induction l with
  | nil => simp [List.dropWhile] at h
  | cons b r ih =>
    by_cases hb : p b
    · exact ih (by simpa [List.dropWhile, hb] using h)
    · rw [List.dropWhile] at h
      simp only [hb] at h
      cases h
      simpa using hb

theorem dropWhile_append_last {p : Char → Bool} {a : Char}
    (ha : p a = false) (l : List Char) :
    (l ++ [a]).dropWhile p = l.dropWhile p ++ [a] := by
  induction l with
  | nil => simp [List.dropWhile, ha]
  | cons b r ih =>
    by_cases hb : p b
    · simpa [List.dropWhile, hb] using ih
    · simp [List.dropWhile, hb]

theorem rstripL_cons_false {a : Char} (ha : pyIsSpace a = false) (t : List Char) :
    rstripL (a :: t) = a :: rstripL t := by
  unfold rstripL
  rw [List.reverse_cons, dropWhile_append_last ha, List.reverse_append]
  rfl

theorem rstripL_idem (l : List Char) : rstripL (rstripL l) = rstripL l := by
  unfold rstripL
  rw [List.reverse_reverse, dropWhile_dropWhile]

theorem lstripL_rstripL_lstripL (l : List Char) :
    lstripL (rstripL (lstripL l)) = rstripL (lstripL l) := by
  rcases h : lstripL l with _ | ⟨a, t⟩
  · rfl
  · have ha : pyIsSpace a = false := head_dropWhile_false h
    rw [rstripL_cons_false ha]
    unfold lstripL
    simp [List.dropWhile, ha]

theorem pyStrip_idem (s : String) : pyStrip (pyStrip s) = pyStrip s := by
  unfold pyStrip
  simp only [String.toList]
  rw [lstripL_rstripL_lstripL, rstripL_idem]

/-- Outcome of the `subprocess.run` / `json.loads` boundary inside
`_call_sdk` (client.py lines 256-286).  `finished rc stdout stderr parsed`
records the subprocess exit code, raw stdout/stderr, and `parsed`, the
result of `json.loads` on the stripped stdout (`none` models a
`json.JSONDecodeError`); `timeoutExpired` models `subprocess.TimeoutExpired`. -/
inductive RunOutcome where
  | timeoutExpired : RunOutcome
  | finished (rc : Int) (stdout stderr : String) (parsed : Option Json) : RunOutcome

/-- How `_call_sdk` can fail: an `SDKError` with its message and code (each
an arbitrary Python value, hence `Json`), or Python's `AttributeError`
raised when `.get` is invoked on a non-dict response. -/
inductive CallFailure where
  | sdkError (message code : Json) : CallFailure
  | attributeError : CallFailure

/-- `ExchangeClient._call_sdk` (client.py lines 256-286), after the
subprocess has run: check exit code, then empty stdout, then JSON parse,
then the truthiness of `response.get("success")`; on the success path
return `response.get("result", \x7b\x7d)`. -/
def call_sdk : RunOutcome → Except CallFailure Json
  | .timeoutExpired =>
      .error (.sdkError (.str "SDK call timed out") (.str "TIMEOUT"))
  | .finished rc _stdout stderr parsed =>
      if rc ≠ 0 then
        .error (.sdkError (.str ("Node.js execution failed: " ++ pyStrip stderr))
          (.str "NODE_ERROR"))
      else if pyStrip _stdout = "" then
        .error (.sdkError (.str "Empty response from SDK") (.str "EMPTY_RESPONSE"))
      else
        match parsed with
        | none =>
            .error (.sdkError (.str "Failed to parse SDK response") (.str "PARSE_ERROR"))
        | some (.obj kvs) =>
            if pyTruthyOpt (jsonGet kvs "success") then
              .ok (jsonGetD kvs "result" (.obj []))
            else
              .error (.sdkError (jsonGetD kvs "error" (.str "Unknown error"))
                (jsonGetD kvs "code" (.str "UNKNOWN")))
        | some _ => .error .attributeError

/-- Whether a `_call_sdk` outcome is a raised `SDKError`. -/
def isSdkError : Except CallFailure Json → Bool
  | .error (.sdkError _ _) => true
  | _ => false

/-- Address categories returned by `validate_address`. -/
inductive AddrType where
  | transparent | sapling | unified | sprout | unknown
  deriving DecidableEq

/-- The record returned by `validate_address`. -/
structure AddrInfo where
  valid : Bool
  type : AddrType
  shielded : Bool
  deriving DecidableEq

/-- The classification chain of `ExchangeClient.validate_address`
(client.py lines 526-546), applied after the initial `strip`. -/
def classifyAddress (address : String) : AddrInfo :=
  if (address.startsWith "t1" || address.startsWith "t3") && address.length == 35 then
    ⟨true, .transparent, false⟩
  else if (address.startsWith "tm" || address.startsWith "t2") && address.length == 35 then
    ⟨true, .transparent, false⟩
  else if address.startsWith "zs" && (70 ≤ address.length && address.length ≤ 90) then
    ⟨true, .sapling, true⟩
  else if address.startsWith "u1" && (50 ≤ address.length && address.length ≤ 500) then
    ⟨true, .unified, true⟩
  else if address.startsWith "zc" && address.length == 95 then
    ⟨true, .sprout, true⟩
  else
    ⟨false, .unknown, false⟩

/-- `ExchangeClient.validate_address` (client.py lines 506-546):
`address = address.strip()` followed by the classification chain. -/
def validate_address (address : String) : AddrInfo :=
  classifyAddress (pyStrip address)

/-- The `RateLimitResult` dataclass as filled in by
`ExchangeClient.check_rate_limit` (client.py lines 427-432); fields hold
the raw JSON values taken from the SDK response. -/
structure RateLimitResult where
  allowed : Json
  reason : Json
  retry_after_ms : Json
  usage : Json


/-- The field-filling step of `ExchangeClient.check_rate_limit`
(client.py lines 427-432) on a successful SDK response object `result`:
each field is `result.get(key, default)`. -/
def check_rate_limit_result (result : List (String × Json)) : RateLimitResult :=
  { allowed := jsonGetD result "allowed" (.bool false)
    reason := jsonGetD result "reason" .null
    retry_after_ms := jsonGetD result "retryAfterMs" .null
    usage := jsonGetD result "usage" (.obj []) }

/-- The `VelocityCheckResult` dataclass as filled in by
`ExchangeClient.check_velocity` (client.py lines 451-457). -/
structure VelocityCheckResult where
  passed : Json
  velocity : Json
  thresholds : Json
  reason : Json
  risk_score : Json


/-- The field-filling step of `ExchangeClient.check_velocity`
(client.py lines 451-457) on a successful SDK response object `result`. -/
def check_velocity_result (result : List (String × Json)) : VelocityCheckResult :=
  { passed := jsonGetD result "passed" (.bool false)
    velocity := jsonGetD result "velocity" (.obj [])
    thresholds := jsonGetD result "thresholds" (.obj [])
    reason := jsonGetD result "reason" .null
    risk_score := jsonGetD result "riskScore" (.num 0) }

/-- The `FeeEstimate` dataclass as filled in by
`ExchangeClient.estimate_withdrawal_fee` (client.py lines 400-405). -/
structure FeeEstimate where
  fee_zec : Json
  fee_zatoshis : Json
  logical_actions : Json
  is_approximate : Json


/-- The field-filling step of `ExchangeClient.estimate_withdrawal_fee`
(client.py lines 400-405) on a successful SDK response object `result`:
`result.get("feeZec", 0.0001)`, `result.get("feeZatoshis", 10000)`,
`result.get("logicalActions", 2)`, `result.get("isApproximate", True)`. -/
def estimate_withdrawal_fee_result (result : List (String × Json)) : FeeEstimate :=
  { fee_zec := jsonGetD result "feeZec" (.num 0.0001)
    fee_zatoshis := jsonGetD result "feeZatoshis" (.num 10000)
    logical_actions := jsonGetD result "logicalActions" (.num 2)
    is_approximate := jsonGetD result "isApproximate" (.bool true) }

/-- How a numeric quantity is represented at the caller-facing interface. -/
inductive AmountWireRepr where
  | decimalString | fixedPointInt | floatingPoint
  deriving DecidableEq

/-- Declared type of `WithdrawalRequest.amount` (client.py line 31:
`amount: float`). -/
def withdrawalRequest_amount_repr : AmountWireRepr := .floatingPoint

/-- Declared type of the `amount` parameter of
`ExchangeClient.process_withdrawal` (client.py line 293: `amount: float`),
forwarded as a JSON number to the SDK. -/
def process_withdrawal_amount_repr : AmountWireRepr := .floatingPoint

/-- Declared type of the `amount` parameter of
`ExchangeClient.estimate_withdrawal_fee` (client.py line 381). -/
def estimate_withdrawal_fee_amount_repr : AmountWireRepr := .floatingPoint

/-- Declared type of the `amount` parameter of
`ExchangeClient.check_rate_limit` (client.py line 407). -/
def check_rate_limit_amount_repr : AmountWireRepr := .floatingPoint

/-- Declared type of the `amount` parameter of
`ExchangeClient.check_velocity` (client.py line 434). -/
def check_velocity_amount_repr : AmountWireRepr := .floatingPoint

/-- Modelled from the spec: the serialized part of a `ComplianceEvent`
(spec 3: sequence_number, timestamp, type, severity, payload).  The
compliance ledger itself lives in the TypeScript SDK and is not under the
Python sources.  The payload type is a parameter. -/
structure EventBody (α : Type) where
  sequenceNumber : Nat
  timestamp : Nat
  etype : String
  severity : String
  payload : α

/-- Modelled from the spec: a stored `ComplianceEvent` with its hash-chain
fields (spec 3: `hash = H(prev_hash, canonical-serialization(body))`). -/
structure LedgerEvent (α : Type) where
  body : EventBody α
  prevHash : Nat
  hash : Nat

/-- Hash of the last stored event, or the genesis hash for an empty ledger. -/
def tipHash {α : Type} : Nat → List (LedgerEvent α) → Nat
  | genesis, [] => genesis
  | _, e :: rest => tipHash e.hash rest

/-- Modelled from the spec: `append(event)` of the Compliance Ledger
(spec 4.5) — the new event's `prev_hash` is the current tip and its `hash`
is `H(prev_hash, body)`. -/
def appendEvent {α : Type} (H : Nat → EventBody α → Nat) (genesis : Nat)
    (l : List (LedgerEvent α)) (b : EventBody α) : List (LedgerEvent α) :=
  l ++ [⟨b, tipHash genesis l, H (tipHash genesis l) b⟩]

/-- The hash-chain invariant exactly as the spec states it (spec 3):
for all i > 0, `event[i].prev_hash = event[i-1].hash`, with the chain
rooted at the fixed genesis hash. -/
def chainLinked {α : Type} (genesis : Nat) (l : List (LedgerEvent α)) : Prop :=
  (∀ i, (h : i + 1 < l.length) →
      (l.get ⟨i + 1, h⟩).prevHash = (l.get ⟨i, Nat.lt_of_succ_lt h⟩).hash) ∧
  (∀ h : 0 < l.length, (l.get ⟨0, h⟩).prevHash = genesis)

/-- Helper: the chain-link property phrased as structural recursion,
carrying the expected previous hash. -/
def linkedFrom {α : Type} : Nat → List (LedgerEvent α) → Prop
  | _, [] => True
  | prev, e :: rest => e.prevHash = prev ∧ linkedFrom e.hash rest

/-- Modelled from the spec: `verifyIntegrity` (spec 4.5) recomputes the
hash chain from the genesis hash over the stored events and returns the
sequence number of the first event whose stored hash does not match the
recomputation (`none` when the chain is intact). -/
def verifyFrom {α : Type} (H : Nat → EventBody α → Nat) :
    Nat → List (LedgerEvent α) → Option Nat
  | _, [] => none
  | prev, e :: rest =>
      if e.hash = H prev e.body then verifyFrom H e.hash rest
      else some e.body.sequenceNumber

/-- Result of `verifyIntegrity(range)` (spec 4.5): validity flag plus the
first broken sequence number, if any. -/
structure IntegrityResult where
  valid : Bool
  firstBroken : Option Nat
  deriving DecidableEq

/-- Modelled from the spec: `verifyIntegrity` of the Compliance Ledger
(spec 4.5), over the whole stored prefix, needing only the ledger and the
genesis hash. -/
def verifyIntegrity {α : Type} (H : Nat → EventBody α → Nat) (genesis : Nat)
    (l : List (LedgerEvent α)) : IntegrityResult :=
  let fb := verifyFrom H genesis l
  ⟨fb.isNone, fb⟩

/-- Recompute the list of hashes from the genesis hash and the stored
bodies alone (spec 8: "recomputing hashes from genesis"). -/
def recomputeHashes {α : Type} (H : Nat → EventBody α → Nat) :
    Nat → List (EventBody α) → List Nat
  | _, [] => []
  | prev, b :: rest => H prev b :: recomputeHashes H (H prev b) rest

/-- The stored hash fields of a ledger. -/
def storedHashes {α : Type} (l : List (LedgerEvent α)) : List Nat :=
  l.map LedgerEvent.hash

/-- The stored bodies of a ledger. -/
def ledgerBodies {α : Type} (l : List (LedgerEvent α)) : List (EventBody α) :=
  l.map LedgerEvent.body

/-- Mutate the payload of the stored event at index `i`, leaving every
other field (including the stored hashes) untouched. -/
def setPayload {α : Type} : List (LedgerEvent α) → Nat → α → List (LedgerEvent α)
  | [], _, _ => []
  | e :: rest, 0, p => { e with body := { e.body with payload := p } } :: rest
  | e :: rest, i + 1, p => e :: setPayload rest i p

/-- Payload mutation on bodies alone. -/
def setPayloadB {α : Type} : List (EventBody α) → Nat → α → List (EventBody α)
  | [], _, _ => []
  | b :: rest, 0, p => { b with payload := p } :: rest
  | b :: rest, i + 1, p => b :: setPayloadB rest i p

/-- Modelled from the spec: per-user `UsageWindow` counters (spec 3),
amounts in fixed-point minor units. -/
structure UsageWindow where
  count : Nat
  totalAmount : Nat
  deriving DecidableEq

/-- Modelled from the spec: the rate-limit quota configuration (spec 6:
`maxCountPerWindow`, `maxAmountPerWindow`). -/
structure RateLimitPolicy where
  maxCountPerWindow : Nat
  maxAmountPerWindow : Nat
  deriving DecidableEq

/-- Outcome of one rate-limit check: the verdict and the (provisionally
reserved) usage window. -/
structure RateCheck where
  allowed : Bool
  usage : UsageWindow
  deriving DecidableEq

/-- Modelled from the spec: `checkRateLimit` of the Rate Limiter
(spec 4.1) — the TypeScript implementation is not under the Python
sources.  A request is allowed only if every quota rule passes (count and
cumulative amount within the window); on success the usage is reserved. -/
def checkRateLimit (pol : RateLimitPolicy) (u : UsageWindow) (amount : Nat) :
    RateCheck :=
  if u.count + 1 ≤ pol.maxCountPerWindow ∧
      u.totalAmount + amount ≤ pol.maxAmountPerWindow then
    ⟨true, ⟨u.count + 1, u.totalAmount + amount⟩⟩
  else
    ⟨false, u⟩

/-- Run the rate limiter over a sequence of same-user requests inside one
window, returning the final usage window and the list of admitted amounts. -/
def runRateLimiter (pol : RateLimitPolicy) :
    UsageWindow → List Nat → UsageWindow × List Nat
  | u, [] => (u, [])
  | u, a :: rest =>
      let c := checkRateLimit pol u a
      let r := runRateLimiter pol c.usage rest
      (r.1, if c.allowed then a :: r.2 else r.2)

/-- Modelled from the spec: a `WithdrawalRequest` (spec 3), amount in
fixed-point minor units. -/
structure WReq where
  userId : String
  fromAddress : String
  toAddress : String
  amount : Nat
  requestId : String

/-- Modelled from the spec: the Withdrawal Orchestrator states (spec 4.4). -/
inductive WState where
  | rateLimited | velocityRejected | submitted | processing | completed | failed
  deriving DecidableEq

/-- Modelled from the spec: a `WithdrawalRecord` (spec 3), one per
request_id, owned by the Orchestrator. -/
structure WRecord where
  requestId : String
  state : WState
  operationId : Option Nat
  deriving DecidableEq

/-- The Orchestrator's record store, keyed by request_id. -/
def WStore : Type := List (String × WRecord)

/-- Lookup of the record stored for a request_id. -/
def storeLookup (st : WStore) (id : String) : Option WRecord :=
  match st with
  | [] => none
  | (k, r) :: rest => if k = id then some r else storeLookup rest id

/-- Modelled from the spec: `processWithdrawal` of the Withdrawal
Orchestrator (spec 4.4) — the TypeScript implementation is not under the
Python sources.  An already-seen request_id returns the stored record
unchanged with no backend call; otherwise the request runs through the
admission pipeline and only a fully admitted request reaches the backend.
`rl` and `vel` are the admission verdicts, `backend` assigns the
operation handle; the returned `Nat` counts backend submissions made by
this invocation. -/
def processWithdrawal (rl vel : WReq → Bool) (backend : WReq → Nat)
    (st : WStore) (req : WReq) : WRecord × WStore × Nat :=
  match storeLookup st req.requestId with
  | some r => (r, st, 0)
  | none =>
      if rl req = false then
        let r : WRecord := ⟨req.requestId, .rateLimited, none⟩
        (r, (req.requestId, r) :: st, 0)
      else if vel req = false then
        let r : WRecord := ⟨req.requestId, .velocityRejected, none⟩
        (r, (req.requestId, r) :: st, 0)
      else
        let r : WRecord := ⟨req.requestId, .submitted, some (backend req)⟩
        (r, (req.requestId, r) :: st, 1)

/-- Total number of backend submissions made for requests bearing a given
request_id while processing a sequence of requests. -/
def backendCalls (rl vel : WReq → Bool) (backend : WReq → Nat) (id : String) :
    WStore → List WReq → Nat
  | _, [] => 0
  | st, req :: rest =>
      let out := processWithdrawal rl vel backend st req
      (if req.requestId = id then out.2.2 else 0) +
        backendCalls rl vel backend id out.2.1 rest

/-- Modelled from the spec: a `UsageWindow` snapshot as consumed by the
Velocity Risk Engine (spec 4.2): counts and sums over the rolling
1h/24h/7d lookback windows plus the historical average amount. -/
structure VelocitySnapshot where
  count1h : Nat
  amount1h : Nat
  count24h : Nat
  amount24h : Nat
  count7d : Nat
  amount7d : Nat
  histAvg : Nat
  deriving DecidableEq

/-- Modelled from the spec: `VelocityThresholds` (spec 4.2 and 6):
per-feature thresholds, fixed per-feature score weights, the multiple of
the historical average that flags the requested amount, and the risk
ceiling. -/
structure VelocityThresholds where
  maxCount1h : Nat
  maxAmount1h : Nat
  maxCount24h : Nat
  maxAmount24h : Nat
  maxCount7d : Nat
  maxAmount7d : Nat
  avgMultiple : Nat
  weightCount1h : Nat
  weightAmount1h : Nat
  weightCount24h : Nat
  weightAmount24h : Nat
  weightCount7d : Nat
  weightAmount7d : Nat
  weightRatio : Nat
  riskCeiling : Nat
  deriving DecidableEq

/-- Verdict of the Velocity Risk Engine. -/
structure VelocityVerdict where
  riskScore : Nat
  passed : Bool
  deriving DecidableEq

/-- Modelled from the spec: `checkVelocity` of the Velocity Risk Engine
(spec 4.2) — the TypeScript implementation is not under the Python
sources.  Each threshold breach (inclusive: a value exactly at its
threshold breaches) contributes its fixed weight to the risk score, and
the total is compared against the configured ceiling (a score at the
ceiling fails).  The function takes only the snapshot, the request amount
and the thresholds. -/
def checkVelocity (th : VelocityThresholds) (snap : VelocitySnapshot)
    (amount : Nat) : VelocityVerdict :=
  let score :=
    (if th.maxCount1h ≤ snap.count1h then th.weightCount1h else 0) +
    (if th.maxAmount1h ≤ snap.amount1h then th.weightAmount1h else 0) +
    (if th.maxCount24h ≤ snap.count24h then th.weightCount24h else 0) +
    (if th.maxAmount24h ≤ snap.amount24h then th.weightAmount24h else 0) +
    (if th.maxCount7d ≤ snap.count7d then th.weightCount7d else 0) +
    (if th.maxAmount7d ≤ snap.amount7d then th.weightAmount7d else 0) +
    (if th.avgMultiple * snap.histAvg ≤ amount then th.weightRatio else 0)
  ⟨score, decide (score < th.riskCeiling)⟩

/-- Claim C7: for every input string, `validate_address` returns a record
whose `type` is one of transparent, sapling, unified, sprout, unknown
(exhaustively, by the `AddrType` inductive); `shielded` is true exactly
when the type is sapling, unified or sprout; and `valid` is false exactly
when the type is unknown. -/
theorem validate_address_classification (a : String) :
    ((validate_address a).shielded = true ↔
      (validate_address a).type = AddrType.sapling ∨
      (validate_address a).type = AddrType.unified ∨
      (validate_address a).type = AddrType.sprout) ∧
    ((validate_address a).valid = false ↔
      (validate_address a).type = AddrType.unknown) := by
  unfold validate_address classifyAddress
  repeat' split
  all_goals decide

/-- Claim C9: `validate_address` is a pure deterministic function,
invariant under surrounding whitespace: stripping the input first does not
change the result, and equal inputs give equal results. -/
theorem validate_address_strip_invariant :
    (∀ s : String, validate_address (pyStrip s) = validate_address s) ∧
    (∀ s t : String, s = t → validate_address s = validate_address t) := by
  constructor
  · intro s
    unfold validate_address
    rw [pyStrip_idem]
  · intro s t h
    rw [h]

/-- Concrete instance of C9 at a whitespace-padded input. -/
theorem validate_address_strip_invariant_witness :
    validate_address (pyStrip " t1abc ") = validate_address " t1abc " ∧
    validate_address "zs1" = validate_address "zs1" :=
  ⟨validate_address_strip_invariant.1 " t1abc ",
   validate_address_strip_invariant.2 "zs1" "zs1" rfl⟩

/-- Claim C8: the wrapper's admission results are fail-closed — when the
SDK response object omits `allowed` (resp. `passed`), the wrapper reports
`allowed = False` (resp. `passed = False`). -/
theorem admission_results_fail_closed (result : List (String × Json)) :
    (jsonGet result "allowed" = none →
      (check_rate_limit_result result).allowed = Json.bool false) ∧
    (jsonGet result "passed" = none →
      (check_velocity_result result).passed = Json.bool false) := by
  constructor
  · intro h
    unfold check_rate_limit_result
    simp [jsonGetD, h]
  · intro h
    unfold check_velocity_result
    simp [jsonGetD, h]

/-- Concrete instance of C8 at the empty response object. -/
theorem admission_results_fail_closed_witness :
    (check_rate_limit_result []).allowed = Json.bool false ∧
    (check_velocity_result []).passed = Json.bool false :=
  ⟨(admission_results_fail_closed []).1 rfl,
   (admission_results_fail_closed []).2 rfl⟩

/-- Claim C10: `estimate_withdrawal_fee` is total over successful SDK
responses — every missing field is replaced by the fixed defaults
`fee_zec = 0.0001`, `fee_zatoshis = 10000`, `logical_actions = 2`,
`is_approximate = True`, the empty result yields exactly that record, and
the two default fee fields denote the same value (0.0001 ZEC =
10000 zatoshis at 10^8 zatoshis per ZEC). -/
theorem fee_estimate_defaults (result : List (String × Json)) :
    (jsonGet result "feeZec" = none →
      (estimate_withdrawal_fee_result result).fee_zec = Json.num 0.0001) ∧
    (jsonGet result "feeZatoshis" = none →
      (estimate_withdrawal_fee_result result).fee_zatoshis = Json.num 10000) ∧
    (jsonGet result "logicalActions" = none →
      (estimate_withdrawal_fee_result result).logical_actions = Json.num 2) ∧
    (jsonGet result "isApproximate" = none →
      (estimate_withdrawal_fee_result result).is_approximate = Json.bool true) ∧
    estimate_withdrawal_fee_result [] =
      ⟨Json.num 0.0001, Json.num 10000, Json.num 2, Json.bool true⟩ ∧
    (0.0001 : ℚ) * 100000000 = 10000 := by
  refine ⟨?_, ?_, ?_, ?_, rfl, by norm_num⟩
  all_goals
    intro h
    unfold estimate_withdrawal_fee_result
    simp [jsonGetD, h]

/-- Concrete instance of C10 at the empty response object. -/
theorem fee_estimate_defaults_witness :
    (estimate_withdrawal_fee_result []).fee_zec = Json.num 0.0001 ∧
    (estimate_withdrawal_fee_result []).fee_zatoshis = Json.num 10000 :=
  ⟨(fee_estimate_defaults []).1 rfl, (fee_estimate_defaults []).2.1 rfl⟩

/-- Counterexample to claim C5 as stated: the amount of a
`WithdrawalRequest` is not exchanged as a decimal string nor as a
fixed-point integer. -/
theorem amount_repr_counterexample :
    ¬ (withdrawalRequest_amount_repr = AmountWireRepr.decimalString ∨
       withdrawalRequest_amount_repr = AmountWireRepr.fixedPointInt) := by
  decide

/-- Claim C5, amended: at the caller-facing interface every amount — the
`WithdrawalRequest.amount` field and the `amount` parameters of
`process_withdrawal`, `estimate_withdrawal_fee`, `check_rate_limit` and
`check_velocity` — is declared and exchanged as a floating-point number
(Python `float`, forwarded as a JSON number), not as a decimal string or
fixed-point integer, and positivity is not enforced. -/
theorem amount_repr_floating_point :
    withdrawalRequest_amount_repr = AmountWireRepr.floatingPoint ∧
    process_withdrawal_amount_repr = AmountWireRepr.floatingPoint ∧
    estimate_withdrawal_fee_amount_repr = AmountWireRepr.floatingPoint ∧
    check_rate_limit_amount_repr = AmountWireRepr.floatingPoint ∧
    check_velocity_amount_repr = AmountWireRepr.floatingPoint := by
  decide

/-- The exact condition under which `_call_sdk` raises an `SDKError`:
nonzero exit, empty stripped stdout, unparseable stdout, timeout, or a
response object whose `success` field is absent or falsy under Python
truthiness. -/
def sdkErrorCondition : RunOutcome → Prop
  | .timeoutExpired => True
  | .finished rc stdout _ parsed =>
      rc ≠ 0 ∨ pyStrip stdout = "" ∨ parsed = none ∨
      ∃ kvs, parsed = some (Json.obj kvs) ∧
        pyTruthyOpt (jsonGet kvs "success") = false

/-- Counterexample to claim C6 as stated: a subprocess that exits 0 and
prints a response whose `success` field is the string `"yes"` — which is
not the JSON value `true` — makes `_call_sdk` return the result object
instead of raising an `SDKError`, because the code tests Python
truthiness (`not response.get("success")`), not equality with `True`. -/
theorem call_sdk_counterexample :
    call_sdk (.finished 0 "x" ""
        (some (.obj [("success", Json.str "yes"), ("result", Json.str "r")])))
      = .ok (Json.str "r") ∧
    jsonGet [("success", Json.str "yes"), ("result", Json.str "r")] "success"
      ≠ some (Json.bool true) := by
  refine ⟨rfl, fun h => ?_⟩
  exact Json.noConfusion (Option.some.inj h)

/-- Claim C6, amended: `_call_sdk` raises an `SDKError` exactly when the
subprocess exits nonzero, its stripped stdout is empty, the stdout is
unparseable JSON, the call times out, or the parsed response is an object
whose `success` field is absent or falsy under Python truthiness (not:
different from `true`); a response parsing to a non-object raises an
`AttributeError` instead.  In the falsy-success case the `SDKError`
carries the response's `error` and `code` fields verbatim (defaults
"Unknown error" and "UNKNOWN" when the field is absent), and otherwise
`_call_sdk` returns the response's `result` field unchanged (default
empty object). -/
theorem call_sdk_spec (o : RunOutcome) :
    (isSdkError (call_sdk o) = true ↔ sdkErrorCondition o) ∧
    (∀ rc stdout stderr kvs,
      o = .finished rc stdout stderr (some (Json.obj kvs)) → rc = 0 →
      pyStrip stdout ≠ "" →
      (pyTruthyOpt (jsonGet kvs "success") = false →
        call_sdk o = .error (.sdkError
          (jsonGetD kvs "error" (Json.str "Unknown error"))
          (jsonGetD kvs "code" (Json.str "UNKNOWN")))) ∧
      (pyTruthyOpt (jsonGet kvs "success") = true →
        call_sdk o = .ok (jsonGetD kvs "result" (Json.obj [])))) := by
  constructor
  · cases o with
    | timeoutExpired => simp [call_sdk, isSdkError, sdkErrorCondition]
    | finished rc stdout stderr parsed =>
      by_cases hrc : rc = 0
      · by_cases hout : pyStrip stdout = ""
        · simp [call_sdk, isSdkError, sdkErrorCondition, hrc, hout]
        · cases parsed with
          | none => simp [call_sdk, isSdkError, sdkErrorCondition, hrc, hout]
          | some j =>
            cases j with
            | obj kvs =>
              by_cases hs : pyTruthyOpt (jsonGet kvs "success") = true
              · simp [call_sdk, isSdkError, sdkErrorCondition, hrc, hout, hs]
              · simp only [Bool.not_eq_true] at hs
                simp [call_sdk, isSdkError, sdkErrorCondition, hrc, hout, hs]
            | null => simp [call_sdk, isSdkError, sdkErrorCondition, hrc, hout]
            | bool b => simp [call_sdk, isSdkError, sdkErrorCondition, hrc, hout]
            | num q => simp [call_sdk, isSdkError, sdkErrorCondition, hrc, hout]
            | str s => simp [call_sdk, isSdkError, sdkErrorCondition, hrc, hout]
            | arr xs => simp [call_sdk, isSdkError, sdkErrorCondition, hrc, hout]
      · simp [call_sdk, isSdkError, sdkErrorCondition, hrc]
  · intro rc stdout stderr kvs ho hrc hout
    subst ho
    constructor
    · intro hs
      simp [call_sdk, hrc, hout, hs]
    · intro hs
      simp [call_sdk, hrc, hout, hs]

/-- Concrete instance of C6 (amended) at a response object with no
`success` field: `_call_sdk` raises `SDKError("Unknown error", "UNKNOWN")`. -/
theorem call_sdk_spec_witness :
    call_sdk (.finished 0 "x" "" (some (Json.obj []))) =
      .error (.sdkError (Json.str "Unknown error") (Json.str "UNKNOWN")) :=
  (((call_sdk_spec (.finished 0 "x" "" (some (Json.obj [])))).2
    0 "x" "" [] rfl rfl (by decide)).1) rfl

theorem runRateLimiter_invariant (pol : RateLimitPolicy) (amts : List Nat) :
    ∀ u : UsageWindow,
      (runRateLimiter pol u amts).1.count =
        u.count + (runRateLimiter pol u amts).2.length ∧
      (runRateLimiter pol u amts).1.totalAmount =
        u.totalAmount + (runRateLimiter pol u amts).2.sum ∧
      (u.count ≤ pol.maxCountPerWindow →
        (runRateLimiter pol u amts).1.count ≤ pol.maxCountPerWindow) ∧
      (u.totalAmount ≤ pol.maxAmountPerWindow →
        (runRateLimiter pol u amts).1.totalAmount ≤ pol.maxAmountPerWindow) := by
  induction amts with
  | nil => intro u; simp [runRateLimiter]
  | cons a rest ih =>
    intro u
    by_cases h : u.count + 1 ≤ pol.maxCountPerWindow ∧
        u.totalAmount + a ≤ pol.maxAmountPerWindow
    · have hc : checkRateLimit pol u a =
          ⟨true, ⟨u.count + 1, u.totalAmount + a⟩⟩ := by
        simp [checkRateLimit, h]
      have := ih ⟨u.count + 1, u.totalAmount + a⟩
      simp only [runRateLimiter, hc] at *
      refine ⟨by simp; omega, by simp; omega, fun _ => ?_, fun _ => ?_⟩
      · exact this.2.2.1 h.1
      · exact this.2.2.2 h.2
    · have hc : checkRateLimit pol u a = ⟨false, u⟩ := by
        simp only [checkRateLimit, if_neg h]
      have := ih u
      simp only [runRateLimiter, hc] at *
      exact ⟨this.1, this.2.1, this.2.2.1, this.2.2.2⟩

/-- Claim C2: for every sequence of same-user requests within one window,
the rate limiter admits at most `maxCountPerWindow` requests and at most
`maxAmountPerWindow` cumulative amount, and a request is allowed only if
every configured quota rule passes. -/
theorem rate_limiter_window_bounds (pol : RateLimitPolicy) :
    (∀ amts : List Nat,
      (runRateLimiter pol ⟨0, 0⟩ amts).2.length ≤ pol.maxCountPerWindow ∧
      (runRateLimiter pol ⟨0, 0⟩ amts).2.sum ≤ pol.maxAmountPerWindow) ∧
    (∀ (u : UsageWindow) (a : Nat), (checkRateLimit pol u a).allowed = true →
      u.count + 1 ≤ pol.maxCountPerWindow ∧
      u.totalAmount + a ≤ pol.maxAmountPerWindow) := by
  constructor
  · intro amts
    have h := runRateLimiter_invariant pol amts ⟨0, 0⟩
    have hcount := h.2.2.1 (Nat.zero_le _)
    have hsum := h.2.2.2 (Nat.zero_le _)
    constructor
    · calc (runRateLimiter pol ⟨0, 0⟩ amts).2.length
          = (runRateLimiter pol ⟨0, 0⟩ amts).1.count := by
            rw [h.1]; simp
        _ ≤ pol.maxCountPerWindow := hcount
    · calc (runRateLimiter pol ⟨0, 0⟩ amts).2.sum
          = (runRateLimiter pol ⟨0, 0⟩ amts).1.totalAmount := by
            rw [h.2.1]; simp
        _ ≤ pol.maxAmountPerWindow := hsum
  · intro u a h
    by_cases hcond : u.count + 1 ≤ pol.maxCountPerWindow ∧
        u.totalAmount + a ≤ pol.maxAmountPerWindow
    · exact hcond
    · exact absurd h (by simp [checkRateLimit, if_neg hcond])

/-- Concrete instance of C2: three requests against a 2-per-window policy
admit at most two, and an allowed first request satisfies both quota
rules. -/
theorem rate_limiter_window_bounds_witness :
    ((runRateLimiter ⟨2, 100⟩ ⟨0, 0⟩ [10, 20, 30]).2.length ≤ 2 ∧
      (runRateLimiter ⟨2, 100⟩ ⟨0, 0⟩ [10, 20, 30]).2.sum ≤ 100) ∧
    ((0 : Nat) + 1 ≤ 2 ∧ (0 : Nat) + 10 ≤ 100) :=
  ⟨(rate_limiter_window_bounds ⟨2, 100⟩).1 [10, 20, 30],
   (rate_limiter_window_bounds ⟨2, 100⟩).2 ⟨0, 0⟩ 10 (by decide)⟩

/-- Claim C4: the Velocity Risk Engine is deterministic — identical
snapshot, request amount and thresholds yield an identical risk score and
verdict (it is a pure function of those three inputs) — and the verdict is
exactly the comparison of the returned risk score against the configured
ceiling (a score at the ceiling fails, inclusively). -/
theorem velocity_deterministic :
    (∀ (th th' : VelocityThresholds) (snap snap' : VelocitySnapshot)
        (a a' : Nat), th = th' → snap = snap' → a = a' →
      checkVelocity th snap a = checkVelocity th' snap' a') ∧
    (∀ (th : VelocityThresholds) (snap : VelocitySnapshot) (a : Nat),
      (checkVelocity th snap a).passed =
        decide ((checkVelocity th snap a).riskScore < th.riskCeiling)) := by
  constructor
  · intro th th' snap snap' a a' h1 h2 h3
    rw [h1, h2, h3]
  · intro th snap a
    rfl

/-- Concrete instance of C4 at fixed thresholds and snapshot. -/
theorem velocity_deterministic_witness :
    checkVelocity ⟨3, 50, 10, 200, 40, 900, 4, 10, 10, 10, 10, 10, 10, 25, 50⟩
        ⟨1, 10, 2, 30, 5, 60, 7⟩ 12 =
      checkVelocity ⟨3, 50, 10, 200, 40, 900, 4, 10, 10, 10, 10, 10, 10, 25, 50⟩
        ⟨1, 10, 2, 30, 5, 60, 7⟩ 12 :=
  velocity_deterministic.1 _ _ _ _ _ _ rfl rfl rfl

theorem processWithdrawal_seen {rl vel : WReq → Bool} {backend : WReq → Nat}
    {st : WStore} {req : WReq} {r : WRecord}
    (h : storeLookup st req.requestId = some r) :
    processWithdrawal rl vel backend st req = (r, st, 0) := by
  simp [processWithdrawal, h]

theorem processWithdrawal_stores (rl vel : WReq → Bool) (backend : WReq → Nat)
    (st : WStore) (req : WReq) :
    storeLookup (processWithdrawal rl vel backend st req).2.1 req.requestId =
      some (processWithdrawal rl vel backend st req).1 := by
  rcases h : storeLookup st req.requestId with _ | r
  · unfold processWithdrawal
    rw [h]
    by_cases hrl : rl req = false
    · simp [hrl, storeLookup]
    · by_cases hvel : vel req = false
      · simp [hrl, hvel, storeLookup]
      · simp [hrl, hvel, storeLookup]
  · rw [processWithdrawal_seen h]
    exact h

theorem processWithdrawal_lookup_some (rl vel : WReq → Bool)
    (backend : WReq → Nat) (st : WStore) (req : WReq) {id : String}
    {r : WRecord} (h : storeLookup st id = some r) :
    storeLookup (processWithdrawal rl vel backend st req).2.1 id = some r := by
  rcases hq : storeLookup st req.requestId with _ | r'
  · have hne : req.requestId ≠ id := by
      intro he
      rw [he] at hq
      rw [hq] at h
      cases h
    unfold processWithdrawal
    rw [hq]
    by_cases hrl : rl req = false
    · simpa [hrl, storeLookup, hne] using h
    · by_cases hvel : vel req = false
      · simpa [hrl, hvel, storeLookup, hne] using h
      · simpa [hrl, hvel, storeLookup, hne] using h
  · rw [processWithdrawal_seen hq]
    exact h

theorem processWithdrawal_lookup_other (rl vel : WReq → Bool)
    (backend : WReq → Nat) (st : WStore) (req : WReq) {id : String}
    (hne : req.requestId ≠ id) :
    storeLookup (processWithdrawal rl vel backend st req).2.1 id =
      storeLookup st id := by
  rcases hq : storeLookup st req.requestId with _ | r'
  · unfold processWithdrawal
    rw [hq]
    by_cases hrl : rl req = false
    · simp [hrl, storeLookup, hne]
    · by_cases hvel : vel req = false
      · simp [hrl, hvel, storeLookup, hne]
      · simp [hrl, hvel, storeLookup, hne]
  · rw [processWithdrawal_seen hq]

theorem processWithdrawal_calls_le_one (rl vel : WReq → Bool)
    (backend : WReq → Nat) (st : WStore) (req : WReq) :
    (processWithdrawal rl vel backend st req).2.2 ≤ 1 := by
  rcases hq : storeLookup st req.requestId with _ | r'
  · unfold processWithdrawal
    rw [hq]
    by_cases hrl : rl req = false
    · simp [hrl]
    · by_cases hvel : vel req = false
      · simp [hrl, hvel]
      · simp [hrl, hvel]
  · rw [processWithdrawal_seen hq]
    exact Nat.zero_le 1

theorem backendCalls_of_seen (rl vel : WReq → Bool) (backend : WReq → Nat)
    (id : String) (reqs : List WReq) :
    ∀ (st : WStore) (r : WRecord), storeLookup st id = some r →
      backendCalls rl vel backend id st reqs = 0 := by
  induction reqs with
  | nil => intro st r _; rfl
  | cons req rest ih =>
    intro st r h
    unfold backendCalls
    dsimp only
    by_cases hid : req.requestId = id
    · have hq : storeLookup st req.requestId = some r := by rw [hid]; exact h
      rw [processWithdrawal_seen hq]
      simp [hid, ih st r h]
    · rw [if_neg hid, ih _ r (processWithdrawal_lookup_some rl vel backend st req h)]

/-- Claim C3: re-submitting a request_id returns the stored record
unchanged — the second `processWithdrawal` with the same request yields
the first call's record, leaves the store untouched and makes no backend
submission — and across any sequence of requests the backend is invoked
at most once per request_id. -/
theorem process_withdrawal_idempotent (rl vel : WReq → Bool)
    (backend : WReq → Nat) :
    (∀ (st : WStore) (req : WReq),
      processWithdrawal rl vel backend
          (processWithdrawal rl vel backend st req).2.1 req =
        ((processWithdrawal rl vel backend st req).1,
         (processWithdrawal rl vel backend st req).2.1, 0)) ∧
    (∀ (st : WStore) (reqs : List WReq) (id : String),
      storeLookup st id = none →
      backendCalls rl vel backend id st reqs ≤ 1) := by
  constructor
  · intro st req
    exact processWithdrawal_seen (processWithdrawal_stores rl vel backend st req)
  · intro st reqs id h
    induction reqs generalizing st with
    | nil => exact Nat.zero_le 1
    | cons req rest ih =>
      unfold backendCalls
      dsimp only
      by_cases hid : req.requestId = id
      · rw [if_pos hid]
        have hrest : backendCalls rl vel backend id
            (processWithdrawal rl vel backend st req).2.1 rest = 0 := by
          apply backendCalls_of_seen rl vel backend id rest _
            (processWithdrawal rl vel backend st req).1
          rw [← hid]
          exact processWithdrawal_stores rl vel backend st req
        rw [hrest]
        simpa using processWithdrawal_calls_le_one rl vel backend st req
      · rw [if_neg hid]
        have h' : storeLookup (processWithdrawal rl vel backend st req).2.1 id
            = none := by
          rw [processWithdrawal_lookup_other rl vel backend st req hid, h]
        simpa using ih _ h'

/-- Concrete instance of C3: submitting the same request twice from an
empty store makes at most one backend call. -/
theorem process_withdrawal_idempotent_witness :
    backendCalls (fun _ => true) (fun _ => true) (fun _ => 7) "r1" []
      [⟨"u", "a", "b", 5, "r1"⟩, ⟨"u", "a", "b", 5, "r1"⟩] ≤ 1 :=
  (process_withdrawal_idempotent (fun _ => true) (fun _ => true)
    (fun _ => 7)).2 [] [⟨"u", "a", "b", 5, "r1"⟩, ⟨"u", "a", "b", 5, "r1"⟩]
    "r1" rfl

theorem linkedFrom_append {α : Type} (l : List (LedgerEvent α))
    (prev : Nat) (e : LedgerEvent α) :
    linkedFrom prev (l ++ [e]) ↔
      linkedFrom prev l ∧ e.prevHash = tipHash prev l := by
  induction l generalizing prev with
  | nil => simp [linkedFrom, tipHash]
  | cons a r ih => simp [linkedFrom, tipHash, ih, and_assoc]

theorem chainLinked_iff_linkedFrom {α : Type} (l : List (LedgerEvent α)) :
    ∀ genesis : Nat, chainLinked genesis l ↔ linkedFrom genesis l := by
  induction l with
  | nil =>
    intro genesis
    constructor
    · intro _; trivial
    · intro _
      exact ⟨fun i h => absurd h (by simp), fun h => absurd h (by simp)⟩
  | cons e r ih =>
    intro genesis
    constructor
    · intro h
      refine ⟨h.2 (by simp), (ih e.hash).mp ⟨?_, ?_⟩⟩
      · intro i hi
        exact h.1 (i + 1) (by simpa using hi)
      · intro h0
        exact h.1 0 (by simpa using h0)
    · intro h
      have hr := (ih e.hash).mpr h.2
      constructor
      · intro i hi
        match i with
        | 0 =>
          exact hr.2 (by simpa using hi)
        | j + 1 =>
          exact hr.1 j (by simpa using hi)
      · intro _
        exact h.1

theorem verifyFrom_none_iff {α : Type} (H : Nat → EventBody α → Nat)
    (l : List (LedgerEvent α)) :
    ∀ prev : Nat, verifyFrom H prev l = none ↔
      storedHashes l = recomputeHashes H prev (ledgerBodies l) := by
  induction l with
  | nil =>
    intro prev
    simp [verifyFrom, storedHashes, ledgerBodies, recomputeHashes]
  | cons e r ih =>
    intro prev
    by_cases h : e.hash = H prev e.body
    · rw [verifyFrom, if_pos h, ih e.hash]
      simp [storedHashes, ledgerBodies, recomputeHashes, ← h]
    · rw [verifyFrom, if_neg h]
      simp [storedHashes, ledgerBodies, recomputeHashes, h]

theorem verifyIntegrity_valid_iff {α : Type} (H : Nat → EventBody α → Nat)
    (genesis : Nat) (l : List (LedgerEvent α)) :
    (verifyIntegrity H genesis l).valid = true ↔
      storedHashes l = recomputeHashes H genesis (ledgerBodies l) := by
  rw [← verifyFrom_none_iff H l genesis]
  unfold verifyIntegrity
  simp [Option.isNone_iff_eq_none]

theorem storedHashes_setPayload {α : Type} (l : List (LedgerEvent α)) :
    ∀ (i : Nat) (p : α), storedHashes (setPayload l i p) = storedHashes l := by
  induction l with
  | nil => intro i p; rfl
  | cons e r ih =>
    intro i p
    match i with
    | 0 => simp [setPayload, storedHashes]
    | j + 1 =>
      have h := ih j p
      simp only [storedHashes] at h
      simp [setPayload, storedHashes, h]

theorem ledgerBodies_setPayload {α : Type} (l : List (LedgerEvent α)) :
    ∀ (i : Nat) (p : α),
      ledgerBodies (setPayload l i p) = setPayloadB (ledgerBodies l) i p := by
  induction l with
  | nil => intro i p; rfl
  | cons e r ih =>
    intro i p
    match i with
    | 0 => simp [setPayload, setPayloadB, ledgerBodies]
    | j + 1 =>
      have h := ih j p
      simp only [ledgerBodies] at h
      simp [setPayload, setPayloadB, ledgerBodies, h]

theorem ledgerBodies_get {α : Type} (l : List (LedgerEvent α)) :
    ∀ (i : Nat) (hi : i < l.length),
      (ledgerBodies l).get ⟨i, by simpa [ledgerBodies] using hi⟩ =
        (l.get ⟨i, hi⟩).body := by
  induction l with
  | nil => intro i hi; exact absurd hi (by simp)
  | cons e r ih =>
    intro i hi
    match i with
    | 0 => rfl
    | j + 1 => exact ih j (by simpa using hi)

theorem recomputeHashes_setPayloadB_ne {α : Type}
    (H : Nat → EventBody α → Nat)
    (hinj : ∀ (prev : Nat) (b b' : EventBody α),
      b.payload ≠ b'.payload → H prev b ≠ H prev b')
    (bs : List (EventBody α)) :
    ∀ (prev i : Nat) (p : α) (hi : i < bs.length),
      p ≠ (bs.get ⟨i, hi⟩).payload →
      recomputeHashes H prev (setPayloadB bs i p) ≠ recomputeHashes H prev bs := by
  induction bs with
  | nil => intro prev i p hi; exact absurd hi (by simp)
  | cons b r ih =>
    intro prev i p hi hne
    match i with
    | 0 =>
      intro heq
      simp only [setPayloadB, recomputeHashes, List.cons.injEq] at heq
      exact hinj prev { b with payload := p } b (by simpa using hne) heq.1
    | j + 1 =>
      intro heq
      simp only [setPayloadB, recomputeHashes, List.cons.injEq] at heq
      exact ih (H prev b) j p (by simpa using hi) hne heq.2

/-- Claim C1: the Compliance Ledger hash chain is an invariant preserved
by every append (each new event's `prev_hash` is the previous event's
`hash`, rooted at the fixed genesis hash); `verifyIntegrity` over any
stored prefix reports valid exactly when recomputing every hash from
genesis reproduces the stored hashes; and mutating any stored event
payload (the hash `H` being injective in the payload) is detected by
`verifyIntegrity`. -/
theorem compliance_ledger_hash_chain {α : Type}
    (H : Nat → EventBody α → Nat) (genesis : Nat)
    (hinj : ∀ (prev : Nat) (b b' : EventBody α),
      b.payload ≠ b'.payload → H prev b ≠ H prev b') :
    (∀ (l : List (LedgerEvent α)) (b : EventBody α),
      chainLinked genesis l → chainLinked genesis (appendEvent H genesis l b)) ∧
    (∀ l : List (LedgerEvent α),
      (verifyIntegrity H genesis l).valid = true ↔
        storedHashes l = recomputeHashes H genesis (ledgerBodies l)) ∧
    (∀ (l : List (LedgerEvent α)) (i : Nat) (p : α) (hi : i < l.length),
      (verifyIntegrity H genesis l).valid = true →
      p ≠ (l.get ⟨i, hi⟩).body.payload →
      (verifyIntegrity H genesis (setPayload l i p)).valid = false) := by
  refine ⟨?_, verifyIntegrity_valid_iff H genesis, ?_⟩
  · intro l b h
    rw [chainLinked_iff_linkedFrom] at h ⊢
    unfold appendEvent
    exact (linkedFrom_append l genesis _).mpr ⟨h, rfl⟩
  · intro l i p hi hvalid hne
    have h1 := (verifyIntegrity_valid_iff H genesis l).mp hvalid
    by_contra hfalse
    have h2 := (verifyIntegrity_valid_iff H genesis (setPayload l i p)).mp
      (by simpa using hfalse)
    rw [storedHashes_setPayload, ledgerBodies_setPayload] at h2
    have hilen : i < (ledgerBodies l).length := by simpa [ledgerBodies] using hi
    have hpay : p ≠ ((ledgerBodies l).get ⟨i, hilen⟩).payload := by
      rw [ledgerBodies_get l i hi]
      exact hne
    exact recomputeHashes_setPayloadB_ne H hinj (ledgerBodies l) genesis i p
      hilen hpay (h2.symm.trans h1)

/-- A concrete payload-injective hash for instantiating the ledger model:
pair the previous hash with the serialized body. -/
def natPayloadHash (prev : Nat) (b : EventBody Nat) : Nat :=
  Nat.pair prev (Nat.pair b.sequenceNumber b.payload)

/-- Concrete instance of C1: in a one-event ledger built by `appendEvent`
over an injective hash, mutating the stored payload from 7 to 9 makes
`verifyIntegrity` report invalid. -/
theorem compliance_ledger_hash_chain_witness :
    (verifyIntegrity natPayloadHash 0
      (setPayload (appendEvent natPayloadHash 0 [] ⟨0, 0, "w", "info", 7⟩) 0 9)).valid
      = false :=
  (compliance_ledger_hash_chain natPayloadHash 0
    (fun prev b b' hne heq => hne (by
      have h1 := (Nat.pair_eq_pair.mp heq).2
      exact (Nat.pair_eq_pair.mp h1).2))).2.2
    (appendEvent natPayloadHash 0 [] ⟨0, 0, "w", "info", 7⟩) 0 9
    (by decide) (by decide) (by decide)

end ExchangeSdk
